import Mathlib

/-!
Shallow embedding of the core logic of `src/app.py` (a Flask + yt-dlp download
service).  Pure helpers (`clean_filename`, `get_size_str`, `check_cookies_file`)
are translated directly; the two routes (`get_video_info` and `download`) are
translated as functions of their request parameters together with the outcome
of the external extraction service, which is passed in explicitly (the service
itself is an opaque external collaborator).

Modelling notes:
* `get_size_str` takes an integer byte count and repeatedly divides by 1024 in
  float arithmetic.  Dividing an integer below 2^53 by powers of 1024 is exact
  in IEEE doubles, so the running value is modelled exactly as a fraction
  `n / d` with `d` the power of 1024 accumulated so far, and Python's `:.2f`
  rendering as exact two-decimal rounding (ties to even) of that fraction.
* `werkzeug.utils.secure_filename` (posix branch) is embedded from its source:
  the `NFKD`-normalise-and-ASCII-encode step is modelled as dropping non-ASCII
  characters, which is the identity on ASCII input; the Windows device-file
  branch is dead on posix and omitted.
-/

namespace YtApp

/-- Python's substring test `needle in hay`, on character lists. -/
def listHas (needle : List Char) : List Char → Bool
  | [] => needle.isEmpty
  | c :: rest => needle.isPrefixOf (c :: rest) || listHas needle rest

/-- Python's `needle in hay` on strings. -/
def strContains (hay needle : String) : Bool :=
  listHas needle.data hay.data

/-! ### `clean_filename` (src/app.py lines 21-26) -/

/-- The blocklist `<>:"/\|?*` from `clean_filename`. -/
def invalid_chars : List Char := ['<', '>', ':', '\"', '/', '\\', '|', '?', '*']

/-- One pass of `filename.replace(char, '')`. -/
def removeChar (l : List Char) (c : Char) : List Char :=
  l.filter (fun x => x != c)

/-- The `for char in invalid_chars: filename = filename.replace(char, '')` loop. -/
def clean_strip (l : List Char) : List Char :=
  invalid_chars.foldl removeChar l

/-- ASCII test; models the `NFKD`-normalise/ASCII-encode step of
`secure_filename`, which keeps exactly the ASCII characters of ASCII input. -/
def isAsciiChar (c : Char) : Bool := c.toNat < 128

/-- The whitespace characters Python's `str.split()` splits on, within ASCII. -/
def isPyWs (c : Char) : Bool :=
  c == ' ' || c == '\t' || c == '\n' || c == '\r' || c == '\x0b' || c == '\x0c'

/-- Python `s.split()`: split on whitespace runs, no empty words. -/
def pySplit (l : List Char) : List (List Char) :=
  (l.splitOnP isPyWs).filter (fun w => !w.isEmpty)

/-- The character class `[A-Za-z0-9_.-]` kept by `secure_filename`'s regex. -/
def isSafeAscii (c : Char) : Bool :=
  c.isAlphanum || c == '_' || c == '.' || c == '-'

/-- Membership in the strip set of `.strip("._")`. -/
def isDotUnd (c : Char) : Bool := c == '.' || c == '_'

/-- Python `s.strip("._")`: drop leading and trailing `.` and `_`. -/
def stripDotUnd (l : List Char) : List Char :=
  ((l.dropWhile isDotUnd).reverse.dropWhile isDotUnd).reverse

/-- `werkzeug.utils.secure_filename` on posix: ASCII-encode, replace the path
separator `/` by a space, join the whitespace-split words with `_`, delete
characters outside `[A-Za-z0-9_.-]`, and strip leading/trailing `.`/`_`. -/
def secure_filename (l : List Char) : List Char :=
  stripDotUnd
    ((List.intercalate ['_']
        (pySplit ((l.filter isAsciiChar).map (fun c => if c == '/' then ' ' else c)))).filter
      isSafeAscii)

/-- `clean_filename`: strip the custom blocklist, then `secure_filename`. -/
def clean_filename (s : String) : String :=
  String.mk (secure_filename (clean_strip s.data))

/-! ### `get_size_str` (src/app.py lines 28-36) -/

/-- Two-digit zero padding for the fractional part. -/
def pad2 (m : Nat) : String :=
  if m < 10 then "0" ++ toString m else toString m

/-- Python's `f"{v:.2f}"` for the exact non-negative value `n / d` (`d > 0`):
scale to hundredths, round to the nearest integer with ties to even, and print
with exactly two fractional digits. -/
def fmt2 (n d : Nat) : String :=
  let m := n * 100
  let q := m / d
  let r := m % d
  let rounded := if 2 * r < d then q else if d < 2 * r then q + 1
    else if q % 2 = 0 then q else q + 1
  toString (rounded / 100) ++ "." ++ pad2 (rounded % 100)

/-- The unit loop of `get_size_str` over the exact running value `n / d`: try
each unit (the test `bytes < 1024` is `n / d < 1024`, i.e. `n < 1024 * d`),
divide by 1024 (`d := d * 1024`), and fall through to a final `GB` rendering
when the unit list is exhausted. -/
def sizeLoop : List String → Nat → Nat → String
  | [], n, d => fmt2 n d ++ " GB"
  | u :: us, n, d =>
    if n < 1024 * d then fmt2 n d ++ " " ++ u else sizeLoop us n (d * 1024)

/-- `get_size_str`: `None ↦ "Unknown size"`, otherwise the unit loop over
`['B', 'KB', 'MB', 'GB']` starting from the integer byte count. -/
def get_size_str (b : Option Nat) : String :=
  match b with
  | none => "Unknown size"
  | some n => sizeLoop ["B", "KB", "MB", "GB"] n 1

/-! ### `check_cookies_file` (src/app.py lines 38-40) -/

/-- `check_cookies_file`, as a function of the credential file's state:
`os.path.exists(COOKIES_FILE) and os.path.getsize(COOKIES_FILE) > 0`. -/
def check_cookies_file (fileExists : Bool) (fileSize : Nat) : Bool :=
  fileExists && decide (0 < fileSize)

/-! ### `get_video_info` (src/app.py lines 42-85) -/

/-- One raw entry of the extraction service's format catalog.  `ext`, `vcodec`
and `format_id` are accessed directly by the code (required keys); `height` and
`filesize` are read with `f.get(key, 0)`, so an absent or null value defaults
to `0`. -/
structure RawFormat where
  ext : String
  vcodec : String
  height : Option Nat
  filesize : Option Nat
  format_id : String
deriving DecidableEq

/-- One entry of the resolved rendition list returned to the caller. -/
structure Rendition where
  height : Nat
  filesize : String
  format_id : String
deriving DecidableEq

/-- The loop condition of `get_video_info`, in the source's evaluation order:
`f['ext'] == 'mp4' and f['vcodec'] != 'none' and height not in
resolutions_found and height > 0`. -/
def passFilter (seen : List Nat) (f : RawFormat) : Bool :=
  f.ext == "mp4" && f.vcodec != "none" && !(seen.contains (f.height.getD 0))
    && decide (0 < f.height.getD 0)

/-- The state-free part of the loop filter: container `mp4`, video codec not
`none`, positive height.  `passFilter` is this plus the dedup test against
the already-seen heights. -/
def passBase (f : RawFormat) : Bool :=
  f.ext == "mp4" && f.vcodec != "none" && decide (0 < f.height.getD 0)

/-- The rendition built from a surviving raw entry. -/
def mkRendition (f : RawFormat) : Rendition :=
  ⟨f.height.getD 0, get_size_str (some (f.filesize.getD 0)), f.format_id⟩

/-- The `for f in info.get('formats', [])` loop: accumulate surviving entries
in order, recording each kept height in `resolutions_found`. -/
def formatsLoop : List RawFormat → List Rendition → List Nat → List Rendition
  | [], acc, _ => acc
  | f :: rest, acc, seen =>
    if passFilter seen f then
      formatsLoop rest (acc ++ [mkRendition f]) (f.height.getD 0 :: seen)
    else
      formatsLoop rest acc seen

/-- Insertion step of the stable non-increasing sort by height: the inserted
element (which precedes the rest in input order) stops at the first position
whose height is not larger, so it lands before any element of equal height. -/
def insertDesc (x : Rendition) : List Rendition → List Rendition
  | [] => [x]
  | h :: t => if h.height ≤ x.height then x :: h :: t else h :: insertDesc x t

/-- `formats.sort(key=lambda x: x['height'], reverse=True)`: Python's sort is
stable, and a stable sort's output is determined by the comparator, so this
stable insertion sort is a faithful model of it. -/
def sortDesc : List Rendition → List Rendition
  | [] => []
  | x :: l => insertDesc x (sortDesc l)

/-- Filter, deduplicate and sort a raw format catalog. -/
def resolveFormats (fs : List RawFormat) : List Rendition :=
  sortDesc (formatsLoop fs [] [])

/-- The metadata dict produced by the extraction service on success.  `title`,
`duration` and `thumbnail` are read with `info.get(...)` and default to
empty/zero. -/
structure RawInfo where
  title : Option String
  duration : Option Nat
  thumbnail : Option String
  formats : List RawFormat

/-- Outcome of `ydl.extract_info(url, download=False)`: a metadata dict, a
`yt_dlp.utils.DownloadError` with a message, or any other exception. -/
inductive ExtractOutcome where
  | success (info : RawInfo)
  | downloadError (msg : String)
  | failure (msg : String)

/-- The resolved metadata returned by `get_video_info` on success. -/
structure VideoMeta where
  title : String
  duration : Nat
  formats : List Rendition
  thumbnail : String
deriving DecidableEq

/-- Result of `get_video_info`: the metadata dict, or an error dict with an
`error` field and an optional `message` field. -/
inductive InfoResult where
  | ok (meta : VideoMeta)
  | err (error : String) (message : Option String)
deriving DecidableEq

/-- The anti-bot signature matched against the `DownloadError` message. -/
def botSignature : String := "Sign in to confirm you\x27re not a bot"

/-- `get_video_info`, as a function of the extraction service's outcome. -/
def get_video_info (outcome : ExtractOutcome) : InfoResult :=
  match outcome with
  | .success i =>
      .ok ⟨i.title.getD "", i.duration.getD 0, resolveFormats i.formats, i.thumbnail.getD ""⟩
  | .downloadError msg =>
      if strContains msg botSignature then
        .err "Authentication required" (some "Please provide YouTube cookies in cookies.txt file")
      else
        .err msg none
  | .failure _ => .err "An unexpected error occurred" none

/-! ### The `/api/download` route (src/app.py lines 103-160) -/

/-- A yt-dlp post-processing step descriptor. -/
structure Postprocessor where
  key : String
  preferredcodec : String
  preferredquality : String
deriving DecidableEq

/-- The yt-dlp options dict built by the download route. -/
structure YdlOpts where
  cookiefile : Option String
  outtmpl : String
  quiet : Bool
  format : String
  merge_output_format : Option String
  postprocessors : List Postprocessor
deriving DecidableEq

/-- Python truthiness of `data.get(key)` for a string field: false for an
absent key and for the empty string. -/
def pyTruthy (s : Option String) : Bool :=
  match s with
  | none => false
  | some v => !v.isEmpty

/-- The f-string rendering of `resolution` (Python renders `None` as the text
`None`). -/
def resolutionText (r : Option Nat) : String :=
  match r with
  | none => "None"
  | some n => toString n

/-- The video-branch format selector
`f'bestvideo[height<={resolution}]+bestaudio/best'`. -/
def videoFormatExpr (r : Option Nat) : String :=
  "bestvideo[height<=" ++ resolutionText r ++ "]+bestaudio/best"

/-- The options dict the route passes to `yt_dlp.YoutubeDL`: the video branch
when `format_type == 'video'`, the audio branch otherwise. -/
def downloadOpts (format_type : String) (resolution : Option Nat) : YdlOpts :=
  if format_type == "video" then
    { cookiefile := some "cookies.txt"
      outtmpl := "downloads/%(title)s.%(ext)s"
      quiet := false
      format := videoFormatExpr resolution
      merge_output_format := some "mp4"
      postprocessors := [] }
  else
    { cookiefile := some "cookies.txt"
      outtmpl := "downloads/%(title)s.%(ext)s"
      quiet := false
      format := "bestaudio/best"
      merge_output_format := none
      postprocessors := [⟨"FFmpegExtractAudio", "mp3", "192"⟩] }

/-- What the route does before any network activity: an early JSON reply, or
an invocation of the extraction service with the built options. -/
inductive RouteAction where
  | reply (status : Nat) (error : String) (message : Option String)
  | invoke (opts : YdlOpts)
deriving DecidableEq

/-- The validation stage of the download route: `if not url or not format_type`
replies 400, a failing cookie check replies 401, and otherwise the extraction
service is invoked with the branch-selected options. -/
def download_gate (url format_type : Option String) (resolution : Option Nat)
    (cookiesOk : Bool) : RouteAction :=
  if !pyTruthy url || !pyTruthy format_type then
    .reply 400 "Missing parameters" none
  else if !cookiesOk then
    .reply 401 "Authentication required" (some "Please provide YouTube cookies in cookies.txt file")
  else
    .invoke (downloadOpts (format_type.getD "") resolution)

/-- Outcome of `ydl.extract_info(url, download=True)` followed by
`ydl.prepare_filename(info)`: the prepared output path, a `DownloadError`, or
any other exception. -/
inductive FetchOutcome where
  | success (preparedFilename : String)
  | downloadError (msg : String)
  | failure (msg : String)

/-- The JSON response of the download route. -/
inductive DlResponse where
  | ok (status : Nat) (message : String) (filename : String)
  | err (status : Nat) (error : String) (message : Option String)
deriving DecidableEq

/-- `p.rfind(c)` on a character list: index of the last occurrence, `-1` when
absent. -/
def rlastIdx : List Char → Char → Int
  | [], _ => -1
  | a :: l, c =>
    if 0 ≤ rlastIdx l c then rlastIdx l c + 1 else if a == c then 0 else -1

/-- `posixpath.basename(p)`: everything after the last `/`. -/
def pyBasenameL (l : List Char) : List Char :=
  l.drop (rlastIdx l '/' + 1).toNat

/-- The root component of `posixpath.splitext(p)`: split at the last dot when
it lies after the last separator and the name part is not all leading dots. -/
def splitextRoot (l : List Char) : List Char :=
  let si := rlastIdx l '/'
  let di := rlastIdx l '.'
  if si < di && ((l.drop (si + 1).toNat).take (di - si - 1).toNat).any (fun c => c != '.') then
    l.take di.toNat
  else
    l

/-- The success tail of the download route: swap the extension to `.mp3` when
`format_type == 'audio'`, then report the basename. -/
def download_finish (format_type : String) (prepared : String) : DlResponse :=
  let filename :=
    if format_type == "audio" then String.mk (splitextRoot prepared.data) ++ ".mp3"
    else prepared
  .ok 200 "Download completed" (String.mk (pyBasenameL filename.data))

/-- The whole download route, as a function of the request parameters, the
credential-gate state, and the extraction service's behaviour on the built
options. -/
def download (url format_type : Option String) (resolution : Option Nat)
    (cookiesOk : Bool) (fetch : YdlOpts → FetchOutcome) : DlResponse :=
  match download_gate url format_type resolution cookiesOk with
  | .reply s e m => .err s e m
  | .invoke opts =>
    match fetch opts with
    | .success prepared => download_finish (format_type.getD "") prepared
    | .downloadError msg => .err 400 msg none
    | .failure _ => .err 500 "An unexpected error occurred" none

/-! ### Helper lemmas -/

/-- Sequentially deleting each character of `cs` is one filter against `cs`. -/
theorem foldl_removeChar_eq (cs : List Char) (l : List Char) :
    cs.foldl removeChar l = l.filter fun c => !cs.contains c := by
  induction cs generalizing l with
  | nil => simp
  | cons c cs ih =>
    simp only [List.foldl_cons, removeChar, ih, List.filter_filter]
    refine List.filter_congr fun a _ => ?_
    by_cases h1 : a = c <;> by_cases h2 : a ∈ cs <;> simp [h1, h2, List.contains_cons]

/-- `stripDotUnd` only deletes characters. -/
theorem mem_of_mem_stripDotUnd {c : Char} {l : List Char} (h : c ∈ stripDotUnd l) : c ∈ l := by
  simp only [stripDotUnd, List.mem_reverse] at h
  exact (List.dropWhile_sublist _).subset ((List.mem_reverse).mp ((List.dropWhile_sublist _).subset h))

/-- Every character surviving `secure_filename` is in `[A-Za-z0-9_.-]`. -/
theorem secure_filename_chars {c : Char} {l : List Char} (h : c ∈ secure_filename l) :
    isSafeAscii c = true :=
  (List.mem_filter.mp (mem_of_mem_stripDotUnd h)).2

/-! ### C8 -/

/-- C8: `get_size_str` returns `"Unknown size"` for an absent input; otherwise
it iteratively divides by 1024 over the units B, KB, MB, GB and returns the
remaining value, rendered with exactly two fractional digits, together with
the unit at which the value first fell strictly below 1024; the listed
examples hold, and when the value is still at least 1024 at the GB step it is
divided a fourth time and rendered with the unit GB regardless of magnitude. -/
theorem c8_size_formatter :
    get_size_str none = "Unknown size" ∧
    get_size_str (some 500) = "500.00 B" ∧
    get_size_str (some 2048) = "2.00 KB" ∧
    get_size_str (some (3 * 1024 * 1024)) = "3.00 MB" ∧
    ∀ n : Nat,
      get_size_str (some n) =
        if n < 1024 then fmt2 n 1 ++ " " ++ "B"
        else if n < 1024 ^ 2 then fmt2 n 1024 ++ " " ++ "KB"
        else if n < 1024 ^ 3 then fmt2 n (1024 ^ 2) ++ " " ++ "MB"
        else if n < 1024 ^ 4 then fmt2 n (1024 ^ 3) ++ " " ++ "GB"
        else fmt2 n (1024 ^ 4) ++ " GB" := by
  refine ⟨rfl, by decide, by decide, by decide, fun n => ?_⟩
  simp only [get_size_str, sizeLoop]
  norm_num

/-! ### C5 -/

/-- C5 counterexample: on a string made entirely of blocked characters the
sanitizer returns the empty string, so "the name sanitizer returns a
non-empty string for every input" is false. -/
theorem c5_counterexample : clean_filename "<<>>??" = "" := by decide

/-- C5 amended: the sanitizer's output consists only of characters in
`[A-Za-z0-9_.-]`, but it is not always non-empty: on inputs composed entirely
of blocked characters (and on the empty string) it returns the empty
string. -/
theorem c5_amended :
    ∀ s : String,
      (∀ c ∈ (clean_filename s).data, isSafeAscii c = true) ∧
      ((∀ c ∈ s.data, c ∈ invalid_chars) → clean_filename s = "") := by
  intro s
  constructor
  · intro c hc
    have hd : (clean_filename s).data = secure_filename (clean_strip s.data) := by
      simp only [clean_filename]
    rw [hd] at hc
    exact secure_filename_chars hc
  · intro h
    have hstrip : clean_strip s.data = [] := by
      rw [clean_strip, foldl_removeChar_eq]
      rw [List.filter_eq_nil_iff]
      intro a ha
      simpa using h a ha
    rw [clean_filename, hstrip]
    rfl

/-- C5 amended, witness at concrete inputs. -/
theorem c5_amended_witness :
    (∀ c ∈ (clean_filename "<<>>??").data, isSafeAscii c = true) ∧
    clean_filename "<<>>??" = "" :=
  ⟨(c5_amended "<<>>??").1, (c5_amended "<<>>??").2 (by decide)⟩

/-! ### C1 -/

/-- C1: when the credential file is absent or has size zero, a download
request (with url and format type supplied) is answered 401 Authentication
required at the gate, before the extraction service is invoked, and the final
response is that 401 whatever the extraction service would have done. -/
theorem c1_credential_gate :
    ∀ (url fmtType : Option String) (resolution : Option Nat) (fileExists : Bool) (fileSize : Nat),
      pyTruthy url = true → pyTruthy fmtType = true →
      (fileExists = false ∨ fileSize = 0) →
      download_gate url fmtType resolution (check_cookies_file fileExists fileSize) =
        .reply 401 "Authentication required"
          (some "Please provide YouTube cookies in cookies.txt file") ∧
      ∀ fetch : YdlOpts → FetchOutcome,
        download url fmtType resolution (check_cookies_file fileExists fileSize) fetch =
          .err 401 "Authentication required"
            (some "Please provide YouTube cookies in cookies.txt file") := by
  intro url fmtType resolution fileExists fileSize hu ht hcred
  have hc : check_cookies_file fileExists fileSize = false := by
    rcases hcred with h | h <;> simp [check_cookies_file, h]
  have hgate : download_gate url fmtType resolution (check_cookies_file fileExists fileSize) =
      .reply 401 "Authentication required"
        (some "Please provide YouTube cookies in cookies.txt file") := by
    simp [download_gate, hu, ht, hc]
  exact ⟨hgate, fun fetch => by simp [download, hgate]⟩

/-- C1 witness: a concrete request against an empty credential file. -/
theorem c1_credential_gate_witness :
    download_gate (some "https://example.test/v") (some "video") (some 720)
        (check_cookies_file true 0) =
      .reply 401 "Authentication required"
        (some "Please provide YouTube cookies in cookies.txt file") ∧
    download (some "https://example.test/v") (some "video") (some 720)
        (check_cookies_file true 0) (fun _ => .failure "unreachable") =
      .err 401 "Authentication required"
        (some "Please provide YouTube cookies in cookies.txt file") := by
  have h := c1_credential_gate (some "https://example.test/v") (some "video") (some 720) true 0
    (by decide) (by decide) (Or.inr rfl)
  exact ⟨h.1, h.2 _⟩

/-! ### C4 -/

/-- C4: a metadata `DownloadError` whose message contains the anti-bot
signature is mapped to the structured Authentication-required error; any other
`DownloadError` is surfaced as an error carrying the raw message; any other
unexpected failure is surfaced as the fixed opaque message, independent of the
internal error text. -/
theorem c4_error_taxonomy :
    (∀ msg : String, strContains msg botSignature = true →
      get_video_info (.downloadError msg) =
        .err "Authentication required"
          (some "Please provide YouTube cookies in cookies.txt file")) ∧
    (∀ msg : String, strContains msg botSignature = false →
      get_video_info (.downloadError msg) = .err msg none) ∧
    (∀ msg : String, get_video_info (.failure msg) =
      .err "An unexpected error occurred" none) := by
  refine ⟨fun msg h => ?_, fun msg h => ?_, fun msg => rfl⟩ <;> simp [get_video_info, h]

/-- C4 witness at concrete error messages. -/
theorem c4_error_taxonomy_witness :
    get_video_info (.downloadError
        "ERROR: Sign in to confirm you\x27re not a bot. Use --cookies for authentication.") =
      .err "Authentication required"
        (some "Please provide YouTube cookies in cookies.txt file") ∧
    get_video_info (.downloadError "ERROR: Video unavailable") =
      .err "ERROR: Video unavailable" none ∧
    get_video_info (.failure "KeyError: format_id") =
      .err "An unexpected error occurred" none :=
  ⟨c4_error_taxonomy.1 _ (by decide), c4_error_taxonomy.2.1 _ (by decide),
    c4_error_taxonomy.2.2 _⟩

/-! ### Path lemmas for the reported filename -/

/-- `rfind` returns an index below the length. -/
theorem rlastIdx_lt_length (l : List Char) (c : Char) : rlastIdx l c < l.length := by
  induction l with
  | nil => simp [rlastIdx]
  | cons a t ih =>
    simp only [rlastIdx, List.length_cons]
    split
    · omega
    · split <;> omega

/-- `rfind` misses exactly when the character is absent. -/
theorem rlastIdx_neg_of_not_mem {l : List Char} {c : Char} (h : c ∉ l) : rlastIdx l c = -1 := by
  induction l with
  | nil => rfl
  | cons a t ih =>
    simp only [List.mem_cons, not_or] at h
    have hb : (a == c) = false := beq_eq_false_iff_ne.mpr fun e => h.1 e.symm
    simp [rlastIdx, ih h.2, hb]

/-- Appending a run free of `c` does not move the last occurrence of `c`. -/
theorem rlastIdx_append {s t : List Char} {c : Char} (h : c ∉ t) :
    rlastIdx (s ++ t) c = rlastIdx s c := by
  induction s with
  | nil => simp [rlastIdx_neg_of_not_mem h, rlastIdx]
  | cons a s ih => simp only [List.cons_append, rlastIdx, List.append_eq, ih]

/-- The basename of a path extended by a separator-free tail ends in that
tail. -/
theorem suffix_pyBasenameL_append (s : List Char) {t : List Char} (h : ('/' : Char) ∉ t) :
    t <:+ pyBasenameL (s ++ t) := by
  unfold pyBasenameL
  rw [rlastIdx_append h]
  have hlt : rlastIdx s '/' < s.length := rlastIdx_lt_length s '/'
  have hle : (rlastIdx s '/' + 1).toNat ≤ s.length := by
    rw [Int.toNat_le]
    omega
  rw [List.drop_append_of_le_length hle]
  exact List.suffix_append _ _

/-! ### C7 -/

/-- C7: a successful download with format type `audio` always reports a
filename ending in `.mp3`, whatever path the extraction service prepared. -/
theorem c7_audio_mp3 :
    ∀ (url : Option String) (resolution : Option Nat) (prepared : String),
      pyTruthy url = true →
      ∃ f : String,
        download url (some "audio") resolution true (fun _ => .success prepared) =
          .ok 200 "Download completed" f ∧ ".mp3".data <:+ f.data := by
  intro url r prepared hu
  have ht : pyTruthy (some "audio") = true := rfl
  refine ⟨String.mk (pyBasenameL (splitextRoot prepared.data ++ ".mp3".data)), ?_, ?_⟩
  · simp [download, download_gate, hu, ht, download_finish, String.data_append]
  · exact suffix_pyBasenameL_append _ (by decide)

/-- C7 witness at a concrete request and extractor-reported extension. -/
theorem c7_audio_mp3_witness :
    ∃ f : String,
      download (some "https://example.test/v") (some "audio") none true
          (fun _ => .success "downloads/Best Song.webm") =
        .ok 200 "Download completed" f ∧ ".mp3".data <:+ f.data :=
  c7_audio_mp3 (some "https://example.test/v") none "downloads/Best Song.webm" (by decide)

/-! ### C6 -/

/-- C6 counterexample: the reported filename is not the sanitized form of the
title-derived filename — for the title `a b` the route reports `a b.mp4`,
while the sanitizer maps that name to `a_b.mp4`. -/
theorem c6_counterexample :
    download (some "https://example.test/v") (some "video") (some 720) true
        (fun _ => .success "downloads/a b.mp4") =
      .ok 200 "Download completed" "a b.mp4" ∧
    clean_filename "a b.mp4" = "a_b.mp4" ∧
    ("a b.mp4" : String) ≠ "a_b.mp4" :=
  ⟨by decide, by decide, by decide⟩

/-- C6 amended: the reported filename is the basename of the extractor-
prepared path (with the `.mp3` substitution when the format type is exactly
`audio`), with no sanitization applied; `clean_filename` is not invoked on
it. -/
theorem c6_amended :
    ∀ (url fmtType : Option String) (resolution : Option Nat) (prepared : String),
      pyTruthy url = true → pyTruthy fmtType = true →
      download url fmtType resolution true (fun _ => .success prepared) =
        .ok 200 "Download completed"
          (String.mk (pyBasenameL
            (if fmtType.getD "" == "audio" then splitextRoot prepared.data ++ ".mp3".data
             else prepared.data))) := by
  intro url t r prepared hu ht
  by_cases ha : t.getD "" == "audio" <;>
    simp [download, download_gate, hu, ht, download_finish, ha, String.data_append]

/-- C6 amended, witness at a concrete request. -/
theorem c6_amended_witness :
    download (some "https://example.test/v") (some "video") (some 720) true
        (fun _ => .success "downloads/a b.mp4") =
      .ok 200 "Download completed"
        (String.mk (pyBasenameL
          (if (some "video").getD "" == "audio"
           then splitextRoot "downloads/a b.mp4".data ++ ".mp3".data
           else "downloads/a b.mp4".data))) :=
  c6_amended (some "https://example.test/v") (some "video") (some 720) "downloads/a b.mp4"
    (by decide) (by decide)

/-! ### C9 -/

/-- C9 counterexample: a video request with no targetHeight is not rejected as
invalid input — the gate invokes the extraction service, interpolating the
text `None` into the format selector. -/
theorem c9_counterexample :
    download_gate (some "https://example.test/v") (some "video") none true =
      .invoke (downloadOpts "video" none) ∧
    (downloadOpts "video" none).format = "bestvideo[height<=None]+bestaudio/best" ∧
    download_gate (some "https://example.test/v") (some "video") none true ≠
      .reply 400 "Missing parameters" none :=
  ⟨by decide, by decide, by decide⟩

/-- C9 amended: the missing-parameter check covers only the url and the
format type; a video request lacking targetHeight passes it and the
extraction service is invoked with `None` interpolated into the format
selector. -/
theorem c9_amended :
    ∀ url : Option String, pyTruthy url = true →
      download_gate url (some "video") none true = .invoke (downloadOpts "video" none) ∧
      (downloadOpts "video" none).format = "bestvideo[height<=None]+bestaudio/best" := by
  intro url hu
  have ht : pyTruthy (some "video") = true := rfl
  exact ⟨by simp [download_gate, hu, ht], by decide⟩

/-- C9 amended, witness at a concrete request. -/
theorem c9_amended_witness :
    download_gate (some "https://example.test/v") (some "video") none true =
      .invoke (downloadOpts "video" none) ∧
    (downloadOpts "video" none).format = "bestvideo[height<=None]+bestaudio/best" :=
  c9_amended (some "https://example.test/v") (by decide)

/-! ### C10 -/

/-- C10 counterexample: a request with format type `gif` is processed through
the audio path, but the reported filename keeps the extractor-reported
extension and does not end in `.mp3`. -/
theorem c10_counterexample :
    download (some "https://example.test/v") (some "gif") none true
        (fun _ => .success "downloads/clip.webm") =
      .ok 200 "Download completed" "clip.webm" ∧
    ¬ (".mp3".data <:+ "clip.webm".data) :=
  ⟨by decide, by decide⟩

/-- C10 amended: a non-empty format type other than `video` is not rejected —
it is processed through the audio path (bestaudio selection with the
MP3-at-192 post-processing step) — but the `.mp3` substitution in the
reported filename happens only when the format type is exactly `audio`: for
any other value the reported name is the basename of the extractor-prepared
path, extension unchanged. -/
theorem c10_amended :
    ∀ (url : Option String) (fmt : String) (resolution : Option Nat) (prepared : String),
      pyTruthy url = true → fmt ≠ "" → fmt ≠ "video" →
      download_gate url (some fmt) resolution true = .invoke (downloadOpts fmt resolution) ∧
      (downloadOpts fmt resolution).format = "bestaudio/best" ∧
      (downloadOpts fmt resolution).postprocessors = [⟨"FFmpegExtractAudio", "mp3", "192"⟩] ∧
      (fmt ≠ "audio" →
        download url (some fmt) resolution true (fun _ => .success prepared) =
          .ok 200 "Download completed" (String.mk (pyBasenameL prepared.data))) := by
  intro url fmt r prepared hu hne hnv
  have hie : fmt.isEmpty = false := by
    cases h : fmt.isEmpty
    · rfl
    · exact absurd ((String.isEmpty_iff fmt).mp h) hne
  have htr : pyTruthy (some fmt) = true := by simp [pyTruthy, hie]
  have hbv : (fmt == "video") = false := beq_eq_false_iff_ne.mpr hnv
  refine ⟨by simp [download_gate, hu, htr], by simp [downloadOpts, hbv],
    by simp [downloadOpts, hbv], fun hna => ?_⟩
  have hba : (fmt == "audio") = false := beq_eq_false_iff_ne.mpr hna
  simp [download, download_gate, hu, htr, download_finish, hba]

/-- C10 amended, witness for format type `gif`. -/
theorem c10_amended_witness :
    download_gate (some "https://example.test/v") (some "gif") none true =
      .invoke (downloadOpts "gif" none) ∧
    (downloadOpts "gif" none).format = "bestaudio/best" ∧
    (downloadOpts "gif" none).postprocessors = [⟨"FFmpegExtractAudio", "mp3", "192"⟩] ∧
    download (some "https://example.test/v") (some "gif") none true
        (fun _ => .success "downloads/clip.webm") =
      .ok 200 "Download completed" (String.mk (pyBasenameL "downloads/clip.webm".data)) := by
  have h := c10_amended (some "https://example.test/v") "gif" none "downloads/clip.webm"
    (by decide) (by decide) (by decide)
  exact ⟨h.1, h.2.1, h.2.2.1, h.2.2.2 (by decide)⟩

/-! ### Lemmas on the format loop and the sort -/

/-- The loop only appends to its accumulator. -/
theorem formatsLoop_acc (fs : List RawFormat) (acc : List Rendition) (seen : List Nat) :
    formatsLoop fs acc seen = acc ++ formatsLoop fs [] seen := by
  induction fs generalizing acc seen with
  | nil => simp [formatsLoop]
  | cons f rest ih =>
    simp only [formatsLoop]
    by_cases hp : passFilter seen f = true
    · rw [if_pos hp, if_pos hp, ih (acc ++ [mkRendition f]), ih ([] ++ [mkRendition f])]
      simp
    · rw [if_neg hp, if_neg hp]
      exact ih acc seen

/-- Full filter implies the state-free filter. -/
theorem passBase_of_passFilter {seen : List Nat} {f : RawFormat}
    (h : passFilter seen f = true) : passBase f = true := by
  simp only [passFilter, Bool.and_eq_true] at h
  simp only [passBase, Bool.and_eq_true]
  exact ⟨⟨h.1.1.1, h.1.1.2⟩, h.2⟩

/-- A passing entry is not at an already-seen height. -/
theorem passFilter_not_seen {seen : List Nat} {f : RawFormat}
    (h : passFilter seen f = true) : f.height.getD 0 ∉ seen := by
  simp only [passFilter, Bool.and_eq_true] at h
  simpa using h.1.2

/-- Every rendition the loop emits comes from a catalog entry that passes the
state-free filter. -/
theorem mem_formatsLoop {fs : List RawFormat} {seen : List Nat} {r : Rendition}
    (h : r ∈ formatsLoop fs [] seen) :
    ∃ f ∈ fs, passBase f = true ∧ r = mkRendition f := by
  induction fs generalizing seen with
  | nil => simp [formatsLoop] at h
  | cons f rest ih =>
    rw [formatsLoop] at h
    by_cases hp : passFilter seen f = true
    · rw [if_pos hp, formatsLoop_acc] at h
      simp only [List.nil_append, List.cons_append, List.mem_cons, List.nil_append] at h
      rcases h with h | h
      · exact ⟨f, List.mem_cons_self f rest, passBase_of_passFilter hp, h⟩
      · obtain ⟨g, hg, hb, he⟩ := ih h
        exact ⟨g, List.mem_cons_of_mem f hg, hb, he⟩
    · rw [if_neg hp] at h
      obtain ⟨g, hg, hb, he⟩ := ih h
      exact ⟨g, List.mem_cons_of_mem f hg, hb, he⟩

/-- Emitted heights avoid the seen set, and are pairwise distinct. -/
theorem formatsLoop_heights (fs : List RawFormat) (seen : List Nat) :
    (∀ r ∈ formatsLoop fs [] seen, r.height ∉ seen) ∧
    (formatsLoop fs [] seen).Pairwise (fun a b => a.height ≠ b.height) := by
  induction fs generalizing seen with
  | nil => simp [formatsLoop]
  | cons f rest ih =>
    by_cases hp : passFilter seen f = true
    · have hloop : formatsLoop (f :: rest) [] seen =
          mkRendition f :: formatsLoop rest [] (f.height.getD 0 :: seen) := by
        rw [formatsLoop, if_pos hp, formatsLoop_acc]
        simp
      rw [hloop]
      have hri := ih (f.height.getD 0 :: seen)
      constructor
      · intro r hr
        rcases List.mem_cons.mp hr with h | h
        · rw [h]
          exact passFilter_not_seen hp
        · exact fun hs => hri.1 r h (List.mem_cons_of_mem _ hs)
      · refine List.Pairwise.cons (fun r hr => ?_) hri.2
        have := hri.1 r hr
        simp only [List.mem_cons, not_or] at this
        exact fun e => this.1 e.symm
    · rw [formatsLoop, if_neg hp]
      exact ih seen

/-- First-seen-wins: the first catalog entry passing the state-free filter at
a not-yet-seen height is emitted by the loop. -/
theorem formatsLoop_first {fs : List RawFormat} {seen : List Nat} {hh : Nat} {f : RawFormat}
    (hseen : hh ∉ seen)
    (hfind : fs.find? (fun g => passBase g && (g.height.getD 0 == hh)) = some f) :
    mkRendition f ∈ formatsLoop fs [] seen := by
  induction fs generalizing seen with
  | nil => simp at hfind
  | cons g rest ih =>
    cases hg : (passBase g && (g.height.getD 0 == hh))
    case true =>
      simp only [List.find?_cons, hg] at hfind
      have hgf : g = f := by injection hfind
      subst hgf
      rw [Bool.and_eq_true] at hg
      have hheight : g.height.getD 0 = hh := by simpa using hg.2
      have hp : passFilter seen g = true := by
        have hb := hg.1
        simp only [passBase, Bool.and_eq_true] at hb
        simp only [passFilter, Bool.and_eq_true]
        refine ⟨⟨⟨hb.1.1, hb.1.2⟩, ?_⟩, hb.2⟩
        rw [hheight]
        simpa using hseen
      rw [formatsLoop, if_pos hp, formatsLoop_acc]
      simp
    case false =>
      simp only [List.find?_cons, hg] at hfind
      have hgne : ¬(passBase g && (g.height.getD 0 == hh)) = true := by simp [hg]
      by_cases hp : passFilter seen g = true
      · have hne : g.height.getD 0 ≠ hh := by
          intro e
          exact hgne (by simp [passBase_of_passFilter hp, e])
        have hnotin : hh ∉ g.height.getD 0 :: seen := by
          simp only [List.mem_cons, not_or]
          exact ⟨fun e => hne e.symm, hseen⟩
        rw [formatsLoop, if_pos hp, formatsLoop_acc]
        simpa using Or.inr (ih hnotin hfind)
      · rw [formatsLoop, if_neg hp]
        exact ih hseen hfind

/-- Insertion preserves the multiset of elements. -/
theorem insertDesc_perm (x : Rendition) (l : List Rendition) :
    List.Perm (insertDesc x l) (x :: l) := by
  induction l with
  | nil => exact List.Perm.refl _
  | cons h t ih =>
    simp only [insertDesc]
    split
    · exact List.Perm.refl _
    · exact (ih.cons h).trans (List.Perm.swap x h t)

/-- The sort is a permutation of its input. -/
theorem sortDesc_perm (l : List Rendition) : List.Perm (sortDesc l) l := by
  induction l with
  | nil => exact List.Perm.refl _
  | cons x l ih => exact (insertDesc_perm x (sortDesc l)).trans (ih.cons x)

/-- Insertion into a non-increasing list keeps it non-increasing. -/
theorem insertDesc_pairwise {l : List Rendition} (x : Rendition)
    (h : l.Pairwise fun a b => b.height ≤ a.height) :
    (insertDesc x l).Pairwise fun a b => b.height ≤ a.height := by
  induction l with
  | nil => simp [insertDesc]
  | cons a t ih =>
    by_cases hax : a.height ≤ x.height
    · rw [insertDesc, if_pos hax]
      refine List.Pairwise.cons (fun b hb => ?_) h
      rcases List.mem_cons.mp hb with e | hbt
      · subst e
        exact hax
      · exact le_trans (List.rel_of_pairwise_cons h hbt) hax
    · rw [insertDesc, if_neg hax]
      refine List.Pairwise.cons (fun b hb => ?_) (ih (List.Pairwise.of_cons h))
      rcases List.mem_cons.mp ((insertDesc_perm x t).mem_iff.mp hb) with e | hbt
      · subst e
        omega
      · exact List.rel_of_pairwise_cons h hbt

/-- The sort's output is non-increasing in height. -/
theorem sortDesc_sorted (l : List Rendition) :
    (sortDesc l).Pairwise fun a b => b.height ≤ a.height := by
  induction l with
  | nil => simp [sortDesc]
  | cons x l ih => exact insertDesc_pairwise x ih

/-! ### C2 -/

/-- C2: every rendition the resolver returns comes from a catalog entry that
passed the filter (container mp4, codec present and not `none`, positive
height); the returned heights are positive and pairwise distinct; and the
list is sorted non-increasing by height. -/
theorem c2_catalog_invariants :
    ∀ fs : List RawFormat,
      (∀ r ∈ resolveFormats fs, ∃ f ∈ fs,
        f.ext = "mp4" ∧ f.vcodec ≠ "none" ∧ 0 < f.height.getD 0 ∧ r = mkRendition f) ∧
      (∀ r ∈ resolveFormats fs, 0 < r.height) ∧
      (resolveFormats fs).Pairwise (fun a b => a.height ≠ b.height) ∧
      (resolveFormats fs).Pairwise (fun a b => b.height ≤ a.height) := by
  intro fs
  have hperm := sortDesc_perm (formatsLoop fs [] [])
  refine ⟨?_, ?_, ?_, sortDesc_sorted _⟩
  · intro r hr
    obtain ⟨f, hf, hb, he⟩ := mem_formatsLoop (hperm.mem_iff.mp hr)
    simp only [passBase, Bool.and_eq_true, beq_iff_eq, bne_iff_ne, decide_eq_true_eq] at hb
    exact ⟨f, hf, hb.1.1, hb.1.2, hb.2, he⟩
  · intro r hr
    obtain ⟨f, _, hb, he⟩ := mem_formatsLoop (hperm.mem_iff.mp hr)
    simp only [passBase, Bool.and_eq_true, decide_eq_true_eq] at hb
    rw [he]
    exact hb.2
  · exact (hperm.pairwise_iff fun h => h.symm).mpr (formatsLoop_heights fs []).2

/-- C2 witness: a concrete catalog with one filtered-out and one surviving
entry. -/
theorem c2_catalog_invariants_witness :
    (∃ f ∈ [RawFormat.mk "webm" "vp9" (some 1080) none "w",
            RawFormat.mk "mp4" "avc1" (some 720) (some 1000) "22"],
      f.ext = "mp4" ∧ f.vcodec ≠ "none" ∧ 0 < f.height.getD 0 ∧
      mkRendition (RawFormat.mk "mp4" "avc1" (some 720) (some 1000) "22") = mkRendition f) ∧
    0 < (mkRendition (RawFormat.mk "mp4" "avc1" (some 720) (some 1000) "22")).height :=
  ⟨(c2_catalog_invariants
      [RawFormat.mk "webm" "vp9" (some 1080) none "w",
       RawFormat.mk "mp4" "avc1" (some 720) (some 1000) "22"]).1
      (mkRendition (RawFormat.mk "mp4" "avc1" (some 720) (some 1000) "22")) (by decide),
   (c2_catalog_invariants
      [RawFormat.mk "webm" "vp9" (some 1080) none "w",
       RawFormat.mk "mp4" "avc1" (some 720) (some 1000) "22"]).2.1
      (mkRendition (RawFormat.mk "mp4" "avc1" (some 720) (some 1000) "22")) (by decide)⟩

/-! ### C3 -/

/-- C3: when a raw catalog has entries passing the filter at a given height,
the rendition retained at that height is built from the first such entry (so
its formatIdentifier is the first-seen one), and it is the only rendition at
that height. -/
theorem c3_first_seen_wins :
    ∀ (fs : List RawFormat) (hh : Nat) (f : RawFormat),
      fs.find? (fun g => passBase g && (g.height.getD 0 == hh)) = some f →
      mkRendition f ∈ resolveFormats fs ∧
      (mkRendition f).format_id = f.format_id ∧
      ∀ r ∈ resolveFormats fs, r.height = hh → r = mkRendition f := by
  intro fs hh f hfind
  have hperm := sortDesc_perm (formatsLoop fs [] [])
  have h1 : mkRendition f ∈ resolveFormats fs :=
    hperm.mem_iff.mpr (formatsLoop_first (by simp) hfind)
  refine ⟨h1, rfl, fun r hr hrh => ?_⟩
  by_contra hne
  have hfh : (mkRendition f).height = hh := by
    have := List.find?_some hfind
    simp only [Bool.and_eq_true, beq_iff_eq] at this
    exact this.2
  have hpw : (resolveFormats fs).Pairwise (fun a b => a.height ≠ b.height) :=
    (hperm.pairwise_iff fun h => h.symm).mpr (formatsLoop_heights fs []).2
  exact hpw.forall (fun _ _ h => h.symm) hr h1 hne (hrh.trans hfh.symm)

/-- C3 witness: two passing entries at height 720; the first one's identifier
is retained and the retained rendition is unique at that height. -/
theorem c3_first_seen_wins_witness :
    mkRendition (RawFormat.mk "mp4" "avc1" (some 720) none "A") ∈
      resolveFormats [RawFormat.mk "mp4" "avc1" (some 720) none "A",
                      RawFormat.mk "mp4" "avc1" (some 720) (some 5000) "B"] ∧
    (mkRendition (RawFormat.mk "mp4" "avc1" (some 720) none "A")).format_id = "A" ∧
    mkRendition (RawFormat.mk "mp4" "avc1" (some 720) none "A") =
      mkRendition (RawFormat.mk "mp4" "avc1" (some 720) none "A") := by
  have h := c3_first_seen_wins
    [RawFormat.mk "mp4" "avc1" (some 720) none "A",
     RawFormat.mk "mp4" "avc1" (some 720) (some 5000) "B"] 720
    (RawFormat.mk "mp4" "avc1" (some 720) none "A") (by decide)
  exact ⟨h.1, h.2.1, h.2.2 _ h.1 (by decide)⟩

end YtApp
